import Mathlib

/-!
WAFv2 IP set data source: a shallow embedding of dataSourceIPSetRead.

Source: internal/service/wafv2/ip_set_data_source.go.

Go pointers (*string, *int32) are Option values, a Go error is its text,
a slice that may be nil where the code tests for nil is an Option of a list.
The remote client is a script of listing responses (the k-th ListIPSets call
receives the k-th response) and a function answering GetIPSet.  Every call the
function issues is recorded, in order, in the trace of the result.
-/

set_option autoImplicit false

namespace wafv2

/-! ## Data model -/

/-- Summary record returned by the listing call (awstypes.IPSetSummary); the fields this code reads. -/
structure IPSetSummary where
  Id : Option String
  Name : Option String
deriving DecidableEq, Repr

/-- Go zero value of IPSetSummary: the initial value of foundIpSet. -/
def IPSetSummary.zero : IPSetSummary := { Id := none, Name := none }

/-- Detail record returned by the fetch call (awstypes.IPSet). -/
structure IPSet where
  ARN : Option String
  Addresses : List String
  Description : Option String
  IPAddressVersion : String
  Id : Option String
  Name : Option String
deriving DecidableEq, Repr

/-- Request of the listing call (wafv2.ListIPSetsInput). -/
structure ListIPSetsInput where
  Scope : String
  Limit : Option Int
  NextMarker : Option String
deriving DecidableEq, Repr

/-- Response of the listing call (wafv2.ListIPSetsOutput); IPSets is none for a nil slice. -/
structure ListIPSetsOutput where
  IPSets : Option (List IPSetSummary)
  NextMarker : Option String
deriving DecidableEq, Repr

/-- Request of the fetch call (wafv2.GetIPSetInput). -/
structure GetIPSetInput where
  Id : Option String
  Name : Option String
  Scope : String
deriving DecidableEq, Repr

/-- Response of the fetch call (wafv2.GetIPSetOutput). -/
structure GetIPSetOutput where
  IPSet : Option IPSet
  LockToken : Option String
deriving DecidableEq, Repr

/-- What a remote call hands back: an error text, or a response pointer that may be nil. -/
abbrev Reply (α : Type) := Except String (Option α)

/-- The remote collaborator: scripted listing replies, and the fetch as a function of its request. -/
structure WAFV2Client where
  ListIPSets : List (Reply ListIPSetsOutput)
  GetIPSet : GetIPSetInput → Reply GetIPSetOutput

/-- One remote call issued by the read function. -/
inductive Call where
  | list (input : ListIPSetsInput)
  | get (input : GetIPSetInput)
deriving DecidableEq, Repr

/-- Severity of a diagnostic (diag.Severity). -/
inductive Severity where
  | error
  | warning
deriving DecidableEq, Repr

/-- One diagnostic (diag.Diagnostic): severity and summary text. -/
structure Diagnostic where
  severity : Severity
  summary : String
deriving DecidableEq, Repr

/-- Diagnostic list (diag.Diagnostics). -/
abbrev Diagnostics := List Diagnostic

/-- The resource data record (schema.ResourceData) restricted to the schema of this data source. -/
structure ResourceData where
  id : String
  name : String
  scope : String
  arn : Option String
  description : Option String
  ip_address_version : String
  addresses : Finset String
deriving DecidableEq

/-- Value handed to d.Set by this code. -/
inductive AttrValue where
  | optStr (v : Option String)
  | str (v : String)
  | strList (v : List String)
deriving DecidableEq, Repr

/-- Behaviour of the attribute writers of schema.ResourceData (d.SetId and d.Set), an external
collaborator: Set returns the record after the call and the error it reports, if any. -/
structure Setters where
  SetId : ResourceData → String → ResourceData
  Set : ResourceData → String → AttrValue → ResourceData × Option String

/-- The writers as the plugin SDK behaves on this schema: each key stores its value and reports
no error; a list written to the set-typed addresses attribute is stored as a set. -/
def schemaSetters : Setters where
  SetId := fun d v => { d with id := v }
  Set := fun d key v =>
    match v with
    | .optStr s =>
      if key = "arn" then ({ d with arn := s }, none)
      else if key = "description" then ({ d with description := s }, none)
      else (d, some ("invalid value for " ++ key))
    | .str s =>
      if key = "ip_address_version" then ({ d with ip_address_version := s }, none)
      else (d, some ("invalid value for " ++ key))
    | .strList l =>
      if key = "addresses" then ({ d with addresses := l.toFinset }, none)
      else (d, some ("invalid value for " ++ key))

/-! ## Helpers the function calls -/

namespace aws

/-- The SDK helper aws.ToString: the pointed-to string, or the empty string for nil. -/
def ToString (p : Option String) : String :=
  match p with
  | some s => s
  | none => ""

end aws

namespace sdkdiag

/-- Modelled from the spec: sdkdiag.AppendErrorf (internal/errs/sdkdiag, not under src) appends one
error diagnostic whose summary is the formatted message; failure is surfaced as a diagnostic list
with a human-readable message.  The message is passed already formatted. -/
def AppendErrorf (diags : Diagnostics) (msg : String) : Diagnostics :=
  diags ++ [{ severity := Severity.error, summary := msg }]

end sdkdiag

namespace flex

/-- Modelled from the spec: flex.FlattenStringValueList (internal/flex, not under src) hands the
remote string list to the writer element by element; the conversion to an unordered set is done
by the set-typed attribute. -/
def FlattenStringValueList (l : List String) : List String := l

end flex

/-! ## The read function -/

/-- The inner loop of lines 79-84: walk the summaries of one page in returned order; at the first
one whose name equals the query name assign it to foundIpSet and leave the inner loop; otherwise
foundIpSet keeps the value it had. -/
def scanPage (name : String) : List IPSetSummary → IPSetSummary → IPSetSummary
  | [], foundIpSet => foundIpSet
  | ipSet :: rest, foundIpSet =>
    if aws.ToString ipSet.Name = name then ipSet else scanPage name rest foundIpSet

/-- How the pagination loop of lines 69-90 ends. -/
inductive LoopEnd where
  | failed (diags : Diagnostics)
  | done (foundIpSet : IPSetSummary)
  | unanswered
deriving DecidableEq, Repr

/-- The outer loop of lines 69-90 over the scripted replies.  Returns the requests issued, in
order, and how the loop ended; unanswered means that the script ran out while the loop was about
to issue another call. -/
def listLoop (name : String) :
    ListIPSetsInput → IPSetSummary → List (Reply ListIPSetsOutput) → List ListIPSetsInput × LoopEnd
  | _, _, [] => ([], LoopEnd.unanswered)
  | input, foundIpSet, reply :: rest =>
    match reply with
    | .error err =>
      ([input], LoopEnd.failed (sdkdiag.AppendErrorf [] ("reading WAFv2 IPSets: " ++ err)))
    | .ok none =>
      ([input], LoopEnd.failed (sdkdiag.AppendErrorf [] "reading WAFv2 IPSets"))
    | .ok (some resp) =>
      match resp.IPSets with
      | none => ([input], LoopEnd.failed (sdkdiag.AppendErrorf [] "reading WAFv2 IPSets"))
      | some ipSets =>
        let foundIpSet := scanPage name ipSets foundIpSet
        match resp.NextMarker with
        | none => ([input], LoopEnd.done foundIpSet)
        | some marker =>
          let r := listLoop name { input with NextMarker := some marker } foundIpSet rest
          (input :: r.1, r.2)

/-- What one run of the read function leaves behind. -/
structure ReadResult where
  diags : Diagnostics
  data : ResourceData
  trace : List Call
deriving DecidableEq

/-- The part of dataSourceIPSetRead after the pagination loop (lines 92-119). -/
def afterLoop (w : Setters) (conn : WAFV2Client) (d : ResourceData) (name : String)
    (calls : List Call) (foundIpSet : IPSetSummary) : ReadResult :=
  match foundIpSet.Id with
  | none =>
    { diags := sdkdiag.AppendErrorf [] ("WAFv2 IPSet not found for name: " ++ name),
      data := d, trace := calls }
  | some _ =>
    let input : GetIPSetInput := { Id := foundIpSet.Id, Name := foundIpSet.Name, Scope := d.scope }
    let trace := calls ++ [Call.get input]
    match conn.GetIPSet input with
    | .error err =>
      { diags := sdkdiag.AppendErrorf [] ("reading WAFv2 IPSet: " ++ err), data := d, trace := trace }
    | .ok none =>
      { diags := sdkdiag.AppendErrorf [] "reading WAFv2 IPSet", data := d, trace := trace }
    | .ok (some resp) =>
      match resp.IPSet with
      | none =>
        { diags := sdkdiag.AppendErrorf [] "reading WAFv2 IPSet", data := d, trace := trace }
      | some ipSet =>
        let d1 := w.SetId d (aws.ToString ipSet.Id)
        let d2 := (w.Set d1 "arn" (AttrValue.optStr ipSet.ARN)).1
        let d3 := (w.Set d2 "description" (AttrValue.optStr ipSet.Description)).1
        let d4 := (w.Set d3 "ip_address_version" (AttrValue.str ipSet.IPAddressVersion)).1
        let r := w.Set d4 "addresses" (AttrValue.strList (flex.FlattenStringValueList ipSet.Addresses))
        match r.2 with
        | some err =>
          { diags := sdkdiag.AppendErrorf [] ("setting addresses: " ++ err), data := r.1,
            trace := trace }
        | none => { diags := [], data := r.1, trace := trace }

/-- The read function of the data source (lines 58-120).  The result is none only when the
listing script is exhausted while the loop still asks for a page. -/
def dataSourceIPSetRead (w : Setters) (conn : WAFV2Client) (d : ResourceData) : Option ReadResult :=
  let name := d.name
  let input : ListIPSetsInput := { Scope := d.scope, Limit := some 100, NextMarker := none }
  match listLoop name input IPSetSummary.zero conn.ListIPSets with
  | (_, LoopEnd.unanswered) => none
  | (calls, LoopEnd.failed diags) =>
    some { diags := diags, data := d, trace := calls.map Call.list }
  | (calls, LoopEnd.done foundIpSet) =>
    some (afterLoop w conn d name (calls.map Call.list) foundIpSet)

/-! ## Vocabulary of the statements -/

/-- A successful listing reply with a present summaries list and the given cursor. -/
def okPage (ipSets : List IPSetSummary) (marker : Option String) : Reply ListIPSetsOutput :=
  Except.ok (some { IPSets := some ipSets, NextMarker := marker })

/-- A successful listing reply that carries a cursor: summaries paired with the cursor. -/
def morePage (p : List IPSetSummary × String) : Reply ListIPSetsOutput :=
  okPage p.1 (some p.2)

/-- A complete successful listing: every page but the last carries a cursor, the last has none. -/
def pagedScript (pre : List (List IPSetSummary × String)) (last : List IPSetSummary) :
    List (Reply ListIPSetsOutput) :=
  pre.map morePage ++ [okPage last none]

/-- The summaries lists of a complete listing, in page order. -/
def pagesOf (pre : List (List IPSetSummary × String)) (last : List IPSetSummary) :
    List (List IPSetSummary) :=
  pre.map Prod.fst ++ [last]

/-- The listing requests for a run over the pages pre followed by one more reply: the first with
no cursor, each later one with the cursor of the previous reply, all with limit 100 and the
given scope. -/
def listRequests (scope : String) (pre : List (List IPSetSummary × String)) : List ListIPSetsInput :=
  (none :: pre.map (fun p => some p.2)).map
    (fun m => { Scope := scope, Limit := some 100, NextMarker := m })

/-- The value of foundIpSet after the inner loop has run over the given pages in order. -/
def carriedSummary (name : String) (pages : List (List IPSetSummary)) : IPSetSummary :=
  pages.foldl (fun foundIpSet ipSets => scanPage name ipSets foundIpSet) IPSetSummary.zero

/-- The first summary of a page whose name equals the query name, if there is one. -/
def firstMatch (name : String) (page : List IPSetSummary) : Option IPSetSummary :=
  page.find? (fun s => decide (aws.ToString s.Name = name))

/-- The first name-equal summary of the last page that contains a name-equal summary; the zero
summary when no page contains one. -/
def lastPageFirstMatch (name : String) (pages : List (List IPSetSummary)) : IPSetSummary :=
  match pages.reverse.find? (fun p => (firstMatch name p).isSome) with
  | some p => (firstMatch name p).getD IPSetSummary.zero
  | none => IPSetSummary.zero

/-- The single error diagnostic with the given summary. -/
def errorDiag (msg : String) : Diagnostics :=
  [{ severity := Severity.error, summary := msg }]

/-! ## Concrete inputs used by the instances below -/

/-- A resource data record on entry, asking for the name a in the regional scope. -/
def exampleData : ResourceData :=
  { id := "", name := "a", scope := "REGIONAL", arn := none, description := none,
    ip_address_version := "", addresses := ∅ }

/-- A detail payload; its address list repeats one member. -/
def exampleDetail : IPSet :=
  { ARN := some "arn:aws:wafv2:set/a", Addresses := ["10.0.0.0/8", "10.0.0.0/8", "192.0.2.0/24"],
    Description := some "office", IPAddressVersion := "IPV4", Id := some "id-detail",
    Name := some "a" }

/-- A fetch that answers every request with the example detail. -/
def exampleGet : GetIPSetInput → Reply GetIPSetOutput :=
  fun _ => Except.ok (some { IPSet := some exampleDetail, LockToken := some "lock" })

/-- Writers that behave as the schema writers except that writing addresses reports an error. -/
def addressesFailing : Setters where
  SetId := schemaSetters.SetId
  Set := fun d key v =>
    if key = "addresses" then (d, some "addresses: wrong element type")
    else schemaSetters.Set d key v

/-- The single page used by the instances: one summary named a with id id-a. -/
def examplePage : List IPSetSummary := [{ Id := some "id-a", Name := some "a" }]

/-- The resource data after a successful read of the example detail. -/
def exampleFetched : ResourceData :=
  { id := "id-detail", name := "a", scope := "REGIONAL", arn := some "arn:aws:wafv2:set/a",
    description := some "office", ip_address_version := "IPV4",
    addresses := {"10.0.0.0/8", "192.0.2.0/24"} }

/-! ## Lemmas on the two loops -/

theorem scanPage_eq_firstMatch (name : String) (page : List IPSetSummary) (f : IPSetSummary) :
    scanPage name page f = (firstMatch name page).getD f := by
  induction page with
  | nil => rfl
  | cons s rest ih =>
    by_cases h : aws.ToString s.Name = name
    · simp [scanPage, firstMatch, h]
    · simpa [scanPage, firstMatch, h] using ih

theorem scanPage_cases (name : String) (page : List IPSetSummary) (f : IPSetSummary) :
    ((∀ s ∈ page, aws.ToString s.Name ≠ name) ∧ scanPage name page f = f) ∨
      (∃ s ∈ page, aws.ToString s.Name = name ∧ scanPage name page f = s) := by
  induction page with
  | nil => exact Or.inl ⟨by simp, rfl⟩
  | cons s rest ih =>
    by_cases h : aws.ToString s.Name = name
    · exact Or.inr ⟨s, by simp, h, by simp [scanPage, h]⟩
    · rcases ih with ⟨hno, heq⟩ | ⟨t, ht, hname, heq⟩
      · refine Or.inl ⟨?_, by simpa [scanPage, h] using heq⟩
        intro t ht
        rcases List.mem_cons.1 ht with rfl | ht
        · exact h
        · exact hno t ht
      · exact Or.inr ⟨t, List.mem_cons_of_mem _ ht, hname, by simpa [scanPage, h] using heq⟩

/-- Folding the inner loop over pages from any start: either nothing matched and the start value
is kept, or the value is a name-equal summary of one of the pages. -/
theorem foldl_scanPage_cases (name : String) (pages : List (List IPSetSummary)) (f : IPSetSummary) :
    ((∀ p ∈ pages, ∀ s ∈ p, aws.ToString s.Name ≠ name) ∧
        pages.foldl (fun acc ipSets => scanPage name ipSets acc) f = f) ∨
      (∃ p ∈ pages, ∃ s ∈ p, aws.ToString s.Name = name ∧
        pages.foldl (fun acc ipSets => scanPage name ipSets acc) f = s) := by
  induction pages generalizing f with
  | nil => exact Or.inl ⟨by simp, rfl⟩
  | cons p rest ih =>
    simp only [List.foldl_cons]
    rcases ih (scanPage name p f) with ⟨hno, heq⟩ | ⟨q, hq, s, hs, hname, heq⟩
    · rcases scanPage_cases name p f with ⟨hno2, heq2⟩ | ⟨s, hs, hname, heq2⟩
      · refine Or.inl ⟨?_, by rw [heq, heq2]⟩
        intro q hq
        rcases List.mem_cons.1 hq with rfl | hq
        · exact hno2
        · exact hno q hq
      · exact Or.inr ⟨p, by simp, s, hs, hname, by rw [heq, heq2]⟩
    · exact Or.inr ⟨q, List.mem_cons_of_mem _ hq, s, hs, hname, heq⟩

/-- The fold of the inner loop is the selection written out in words. -/
theorem carriedSummary_eq_lastPageFirstMatch (name : String) (pages : List (List IPSetSummary)) :
    carriedSummary name pages = lastPageFirstMatch name pages := by
  unfold carriedSummary lastPageFirstMatch
  induction pages using List.reverseRecOn with
  | nil => rfl
  | append_singleton pages p ih =>
    rw [List.foldl_append, List.reverse_append]
    simp only [List.foldl_cons, List.foldl_nil, List.reverse_cons, List.reverse_nil,
      List.nil_append, List.singleton_append, List.find?_cons]
    rw [scanPage_eq_firstMatch]
    cases hp : firstMatch name p with
    | some s => simp [hp]
    | none => simpa using ih

/-- A run of the outer loop over pages that carry a cursor, followed by a reply at which the loop
stops whatever the request: the requests issued and the end reached. -/
theorem listLoop_append (name scope : String) (lim : Option Int)
    (reply : Reply ListIPSetsOutput) (rest : List (Reply ListIPSetsOutput))
    (E : IPSetSummary → LoopEnd)
    (hstop : ∀ input found, listLoop name input found (reply :: rest) = ([input], E found))
    (pre : List (List IPSetSummary × String)) (m : Option String) (found : IPSetSummary) :
    listLoop name { Scope := scope, Limit := lim, NextMarker := m } found
        (pre.map morePage ++ reply :: rest)
      = ((m :: pre.map (fun p => some p.2)).map
            (fun x => { Scope := scope, Limit := lim, NextMarker := x }),
          E (pre.foldl (fun acc p => scanPage name p.1 acc) found)) := by
  induction pre generalizing m found with
  | nil => simpa using hstop _ found
  | cons p tl ih =>
    have := ih (some p.2) (scanPage name p.1 found)
    simp only [List.map_cons, List.cons_append, List.foldl_cons]
    simp only [listLoop, morePage, okPage]
    rw [this]
    simp

/-- Whenever the outer loop ends normally, the script starts with a complete listing, one request
was issued per page of it, and the value carried is the fold of the inner loop over its pages. -/
theorem listLoop_done_inv (name scope : String) (lim : Option Int)
    (script : List (Reply ListIPSetsOutput)) (m : Option String) (found f : IPSetSummary)
    (calls : List ListIPSetsInput)
    (h : listLoop name { Scope := scope, Limit := lim, NextMarker := m } found script
      = (calls, LoopEnd.done f)) :
    ∃ pre last rest, script = pagedScript pre last ++ rest ∧
      calls = (m :: pre.map (fun p => some p.2)).map
            (fun x => { Scope := scope, Limit := lim, NextMarker := x }) ∧
      f = scanPage name last (pre.foldl (fun acc p => scanPage name p.1 acc) found) := by
  induction script generalizing m found calls with
  | nil => simp [listLoop] at h
  | cons reply rest ih =>
    rcases reply with err | _ | resp
    · simp [listLoop] at h
    · simp [listLoop] at h
    · rcases resp with ⟨_ | ipSets, _ | marker⟩
      · simp [listLoop] at h
      · simp [listLoop] at h
      · simp only [listLoop, Prod.mk.injEq, LoopEnd.done.injEq] at h
        exact ⟨[], ipSets, rest, by simp [pagedScript, okPage], by simp [h.1], by simp [h.2]⟩
      · simp only [listLoop, Prod.mk.injEq] at h
        obtain ⟨pre, last, rest2, hs, hc, hf⟩ := ih (some marker) _ _ (Prod.ext rfl h.2)
        refine ⟨(ipSets, marker) :: pre, last, rest2, ?_, ?_, ?_⟩
        · simp [pagedScript, morePage, okPage, hs]
        · rw [← h.1]; simpa using hc
        · simpa using hf

/-- A trace made of listing calls holds no fetch call. -/
theorem get_not_mem_list_calls (reqs : List ListIPSetsInput) (g : GetIPSetInput) :
    Call.get g ∉ reqs.map Call.list := by
  simp

theorem carriedSummary_pagesOf (name : String) (pre : List (List IPSetSummary × String))
    (last : List IPSetSummary) :
    carriedSummary name (pagesOf pre last)
      = scanPage name last (pre.foldl (fun acc p => scanPage name p.1 acc) IPSetSummary.zero) := by
  simp [carriedSummary, pagesOf, List.foldl_append, List.foldl_map]

/-- The outer loop over a complete listing (and whatever replies follow it, never asked for). -/
theorem listLoop_complete (name scope : String) (pre : List (List IPSetSummary × String))
    (last : List IPSetSummary) (rest : List (Reply ListIPSetsOutput)) :
    listLoop name { Scope := scope, Limit := some 100, NextMarker := none } IPSetSummary.zero
        (pagedScript pre last ++ rest)
      = (listRequests scope pre, LoopEnd.done (carriedSummary name (pagesOf pre last))) := by
  have h := listLoop_append name scope (some 100) (okPage last none) rest
    (fun f => LoopEnd.done (scanPage name last f))
    (by intro input found; simp [listLoop, okPage]) pre none IPSetSummary.zero
  rw [carriedSummary_pagesOf]
  simpa [pagedScript, listRequests] using h

/-- The read function over a complete listing continues with the part after the loop. -/
theorem read_complete (w : Setters) (get : GetIPSetInput → Reply GetIPSetOutput)
    (d : ResourceData) (pre : List (List IPSetSummary × String)) (last : List IPSetSummary)
    (rest : List (Reply ListIPSetsOutput)) :
    dataSourceIPSetRead w { ListIPSets := pagedScript pre last ++ rest, GetIPSet := get } d
      = some (afterLoop w { ListIPSets := pagedScript pre last ++ rest, GetIPSet := get } d d.name
          ((listRequests d.scope pre).map Call.list) (carriedSummary d.name (pagesOf pre last))) := by
  simp only [dataSourceIPSetRead, listLoop_complete]

/-- The read function over pages with cursors followed by a reply at which the loop fails. -/
theorem read_failed (w : Setters) (get : GetIPSetInput → Reply GetIPSetOutput)
    (d : ResourceData) (pre : List (List IPSetSummary × String))
    (reply : Reply ListIPSetsOutput) (rest : List (Reply ListIPSetsOutput)) (diags : Diagnostics)
    (hstop : ∀ input found,
      listLoop d.name input found (reply :: rest) = ([input], LoopEnd.failed diags)) :
    dataSourceIPSetRead w { ListIPSets := pre.map morePage ++ reply :: rest, GetIPSet := get } d
      = some { diags := diags, data := d, trace := (listRequests d.scope pre).map Call.list } := by
  have h := listLoop_append d.name d.scope (some 100) reply rest (fun _ => LoopEnd.failed diags)
    hstop pre none IPSetSummary.zero
  simp only [dataSourceIPSetRead, h, listRequests]

theorem afterLoop_absent_id (w : Setters) (conn : WAFV2Client) (d : ResourceData) (name : String)
    (calls : List Call) (f : IPSetSummary) (h : f.Id = none) :
    afterLoop w conn d name calls f
      = { diags := errorDiag ("WAFv2 IPSet not found for name: " ++ name), data := d,
          trace := calls } := by
  simp [afterLoop, h, sdkdiag.AppendErrorf, errorDiag]

theorem length_listRequests (scope : String) (pre : List (List IPSetSummary × String)) :
    (listRequests scope pre).length = pre.length + 1 := by
  simp [listRequests]

theorem length_pagesOf (pre : List (List IPSetSummary × String)) (last : List IPSetSummary) :
    (pagesOf pre last).length = pre.length + 1 := by
  simp [pagesOf]

theorem afterLoop_trace_present_id (w : Setters) (conn : WAFV2Client) (d : ResourceData)
    (name : String) (calls : List Call) (f : IPSetSummary) (id : String) (h : f.Id = some id) :
    (afterLoop w conn d name calls f).trace
      = calls ++ [Call.get { Id := some id, Name := f.Name, Scope := d.scope }] := by
  simp only [afterLoop, h]
  split
  · rfl
  · rfl
  · split
    · rfl
    · split <;> rfl

/-! ## Inversion of a run -/

/-- A failed outer loop reports one of the two listing messages. -/
theorem listLoop_failed_inv (name : String) (script : List (Reply ListIPSetsOutput))
    (input : ListIPSetsInput) (found : IPSetSummary) (calls : List ListIPSetsInput)
    (diags : Diagnostics) (h : listLoop name input found script = (calls, LoopEnd.failed diags)) :
    diags = errorDiag "reading WAFv2 IPSets" ∨
      ∃ e, diags = errorDiag ("reading WAFv2 IPSets: " ++ e) := by
  induction script generalizing input found calls with
  | nil => simp [listLoop] at h
  | cons reply rest ih =>
    rcases reply with err | _ | resp
    · simp only [listLoop, Prod.mk.injEq, LoopEnd.failed.injEq] at h
      exact Or.inr ⟨err, by rw [← h.2]; rfl⟩
    · simp only [listLoop, Prod.mk.injEq, LoopEnd.failed.injEq] at h
      exact Or.inl (by rw [← h.2]; rfl)
    · rcases resp with ⟨_ | ipSets, _ | marker⟩
      · simp only [listLoop, Prod.mk.injEq, LoopEnd.failed.injEq] at h
        exact Or.inl (by rw [← h.2]; rfl)
      · simp only [listLoop, Prod.mk.injEq, LoopEnd.failed.injEq] at h
        exact Or.inl (by rw [← h.2]; rfl)
      · simp [listLoop] at h
      · simp only [listLoop, Prod.mk.injEq] at h
        exact ih _ _ _ (Prod.ext rfl h.2)

/-- Every finished run either failed in the listing loop, with the data untouched and only
listing calls issued, or went through a complete listing into the part after the loop. -/
theorem read_inv (w : Setters) (conn : WAFV2Client) (d : ResourceData) (r : ReadResult)
    (hrun : dataSourceIPSetRead w conn d = some r) :
    (r.data = d ∧ (∀ g, Call.get g ∉ r.trace) ∧
        (r.diags = errorDiag "reading WAFv2 IPSets" ∨
          ∃ e, r.diags = errorDiag ("reading WAFv2 IPSets: " ++ e))) ∨
      (∃ pre last rest, conn.ListIPSets = pagedScript pre last ++ rest ∧
        r = afterLoop w conn d d.name ((listRequests d.scope pre).map Call.list)
          (carriedSummary d.name (pagesOf pre last))) := by
  unfold dataSourceIPSetRead at hrun
  simp only at hrun
  generalize hl : listLoop d.name { Scope := d.scope, Limit := some 100, NextMarker := none }
    IPSetSummary.zero conn.ListIPSets = res at hrun
  rcases res with ⟨calls, diags | f | _⟩
  · simp only [Option.some.injEq] at hrun
    subst hrun
    exact Or.inl ⟨rfl, fun g => get_not_mem_list_calls _ g, listLoop_failed_inv _ _ _ _ _ _ hl⟩
  · simp only [Option.some.injEq] at hrun
    obtain ⟨pre, last, rest, hs, hc, hf⟩ := listLoop_done_inv _ _ _ _ _ _ _ _ hl
    refine Or.inr ⟨pre, last, rest, hs, ?_⟩
    rw [carriedSummary_pagesOf, ← hf, ← hrun, hc]
    rfl
  · simp at hrun

/-- The ways the part after the loop can end. -/
theorem afterLoop_cases (w : Setters) (conn : WAFV2Client) (d : ResourceData) (name : String)
    (calls : List Call) (f : IPSetSummary) :
    (f.Id = none ∧ afterLoop w conn d name calls f
        = { diags := errorDiag ("WAFv2 IPSet not found for name: " ++ name), data := d,
            trace := calls }) ∨
      (∃ id, f.Id = some id ∧
        (afterLoop w conn d name calls f).trace
          = calls ++ [Call.get { Id := some id, Name := f.Name, Scope := d.scope }] ∧
        (((afterLoop w conn d name calls f).data = d ∧
            ((afterLoop w conn d name calls f).diags = errorDiag "reading WAFv2 IPSet" ∨
              ∃ e, (afterLoop w conn d name calls f).diags
                = errorDiag ("reading WAFv2 IPSet: " ++ e))) ∨
          (∃ e, (afterLoop w conn d name calls f).diags = errorDiag ("setting addresses: " ++ e)) ∨
          (afterLoop w conn d name calls f).diags = [])) := by
  cases hid : f.Id with
  | none => exact Or.inl ⟨rfl, afterLoop_absent_id _ _ _ _ _ _ hid⟩
  | some id =>
    refine Or.inr ⟨id, rfl, afterLoop_trace_present_id _ _ _ _ _ _ id hid, ?_⟩
    simp only [afterLoop, hid]
    split
    · exact Or.inl ⟨rfl, Or.inr ⟨_, rfl⟩⟩
    · exact Or.inl ⟨rfl, Or.inl rfl⟩
    · split
      · exact Or.inl ⟨rfl, Or.inl rfl⟩
      · split
        · exact Or.inr (Or.inl ⟨_, rfl⟩)
        · exact Or.inr (Or.inr rfl)

/-! ## The messages are pairwise distinct -/

theorem errorDiag_inj (a b : String) (h : errorDiag a = errorDiag b) : a = b := by
  simpa [errorDiag] using h

theorem notFound_ne_listing (n : String) :
    "WAFv2 IPSet not found for name: " ++ n ≠ "reading WAFv2 IPSets" := by
  intro h
  have := congrArg String.data h
  simp at this

theorem notFound_ne_listing_err (n e : String) :
    "WAFv2 IPSet not found for name: " ++ n ≠ "reading WAFv2 IPSets: " ++ e := by
  intro h
  have := congrArg String.data h
  simp at this

theorem notFound_ne_fetch (n : String) :
    "WAFv2 IPSet not found for name: " ++ n ≠ "reading WAFv2 IPSet" := by
  intro h
  have := congrArg String.data h
  simp at this

theorem notFound_ne_fetch_err (n e : String) :
    "WAFv2 IPSet not found for name: " ++ n ≠ "reading WAFv2 IPSet: " ++ e := by
  intro h
  have := congrArg String.data h
  simp at this

theorem notFound_ne_setting (n e : String) :
    "WAFv2 IPSet not found for name: " ++ n ≠ "setting addresses: " ++ e := by
  intro h
  have := congrArg String.data h
  simp at this

theorem listing_ne_listing_err (e : String) :
    "reading WAFv2 IPSets" ≠ "reading WAFv2 IPSets: " ++ e := by
  intro h
  have := congrArg String.data h
  simp at this

theorem listing_ne_fetch_err (e : String) :
    "reading WAFv2 IPSets" ≠ "reading WAFv2 IPSet: " ++ e := by
  intro h
  have := congrArg String.data h
  simp at this

theorem fetch_ne_listing_err (e : String) :
    "reading WAFv2 IPSet" ≠ "reading WAFv2 IPSets: " ++ e := by
  intro h
  have := congrArg String.data h
  simp at this

theorem fetch_ne_fetch_err (e : String) :
    "reading WAFv2 IPSet" ≠ "reading WAFv2 IPSet: " ++ e := by
  intro h
  have := congrArg String.data h
  simp at this

/-! ## Claims -/

/-- C1, the code at the failing input: page 1 holds a summary named a (id first) and a cursor,
page 2 holds another summary named a (id second).  The first name-equal summary in scan order is
the one with id first, yet the fetch is keyed on id second. -/
theorem later_page_match_replaces_first_match :
    firstMatch "a" [{ Id := some "first", Name := some "a" }, { Id := some "second", Name := some "a" }]
        = some { Id := some "first", Name := some "a" } ∧
      (dataSourceIPSetRead schemaSetters
          { ListIPSets := pagedScript [([{ Id := some "first", Name := some "a" }], "m1")]
              [{ Id := some "second", Name := some "a" }],
            GetIPSet := exampleGet } exampleData).map (fun r => r.trace)
        = some [Call.list { Scope := "REGIONAL", Limit := some 100, NextMarker := none },
                Call.list { Scope := "REGIONAL", Limit := some 100, NextMarker := some "m1" },
                Call.get { Id := some "second", Name := some "a", Scope := "REGIONAL" }] := by
  decide

/-- C2, the code at the failing input: page 1 holds the only summary named a and a cursor, page 2
holds no match.  Page 1 is the first page with a match, yet two listing calls are issued before
the fetch. -/
theorem listing_continues_after_match :
    (dataSourceIPSetRead schemaSetters
          { ListIPSets := pagedScript [([{ Id := some "first", Name := some "a" }], "m1")]
              [{ Id := some "other", Name := some "b" }],
            GetIPSet := exampleGet } exampleData).map (fun r => (r.diags, r.trace))
        = some ([],
               [Call.list { Scope := "REGIONAL", Limit := some 100, NextMarker := none },
                Call.list { Scope := "REGIONAL", Limit := some 100, NextMarker := some "m1" },
                Call.get { Id := some "first", Name := some "a", Scope := "REGIONAL" }]) := by
  decide

/-- C3: when no summary of a complete successful listing has a name equal to the query name, the
read function fails with the single error "WAFv2 IPSet not found for name: " followed by the query
name, leaves the resource data as it was, and its trace is exactly one listing call per page, in
order, with no fetch call. -/
theorem notFound_when_no_summary_matches (w : Setters)
    (get : GetIPSetInput → Reply GetIPSetOutput) (d : ResourceData)
    (pre : List (List IPSetSummary × String)) (last : List IPSetSummary)
    (hno : ∀ p ∈ pagesOf pre last, ∀ s ∈ p, aws.ToString s.Name ≠ d.name) :
    dataSourceIPSetRead w { ListIPSets := pagedScript pre last, GetIPSet := get } d
        = some { diags := errorDiag ("WAFv2 IPSet not found for name: " ++ d.name), data := d,
                 trace := (listRequests d.scope pre).map Call.list } ∧
      (∀ g, Call.get g ∉ (listRequests d.scope pre).map Call.list) ∧
      ((listRequests d.scope pre).map Call.list).length = (pagesOf pre last).length := by
  refine ⟨?_, fun g => get_not_mem_list_calls _ g, ?_⟩
  · have hrun := read_complete w get d pre last []
    rw [List.append_nil] at hrun
    rw [hrun]
    have hzero : carriedSummary d.name (pagesOf pre last) = IPSetSummary.zero := by
      rcases foldl_scanPage_cases d.name (pagesOf pre last) IPSetSummary.zero with
        ⟨_, heq⟩ | ⟨p, hp, s, hs, hname, _⟩
      · exact heq
      · exact absurd hname (hno p hp s hs)
    rw [afterLoop_absent_id _ _ _ _ _ _ (by rw [hzero]; rfl)]
  · rw [List.length_map, length_listRequests, length_pagesOf]

/-- Instance of C3: two pages, no summary named a. -/
theorem notFound_when_no_summary_matches_witness :
    (∀ p ∈ pagesOf [([{ Id := some "1", Name := some "b" }], "m1")]
        [{ Id := some "2", Name := some "A" }, { Id := some "3", Name := none }],
        ∀ s ∈ p, aws.ToString s.Name ≠ exampleData.name) ∧
      (dataSourceIPSetRead schemaSetters
          { ListIPSets := pagedScript [([{ Id := some "1", Name := some "b" }], "m1")]
              [{ Id := some "2", Name := some "A" }, { Id := some "3", Name := none }],
            GetIPSet := exampleGet } exampleData
        = some { diags := errorDiag ("WAFv2 IPSet not found for name: " ++ exampleData.name),
                 data := exampleData,
                 trace := (listRequests exampleData.scope
                   [([{ Id := some "1", Name := some "b" }], "m1")]).map Call.list } ∧
        (∀ g, Call.get g ∉ (listRequests exampleData.scope
            [([{ Id := some "1", Name := some "b" }], "m1")]).map Call.list) ∧
        ((listRequests exampleData.scope
            [([{ Id := some "1", Name := some "b" }], "m1")]).map Call.list).length
          = (pagesOf [([{ Id := some "1", Name := some "b" }], "m1")]
              [{ Id := some "2", Name := some "A" }, { Id := some "3", Name := none }]).length) :=
  ⟨by decide, notFound_when_no_summary_matches schemaSetters exampleGet exampleData _ _ (by decide)⟩

/-- C4 as stated fails: a single page, no cursor, whose first summary is named a and has no id.
The read function fails with the not-found error although summaries of the listed page have a
name equal to the query name. -/
theorem notFound_although_a_summary_matches :
    (dataSourceIPSetRead schemaSetters
          { ListIPSets := pagedScript []
              [{ Id := none, Name := some "a" }, { Id := some "second", Name := some "a" }],
            GetIPSet := exampleGet } exampleData).map (fun r => r.diags)
        = some (errorDiag ("WAFv2 IPSet not found for name: " ++ exampleData.name)) ∧
      ¬ (∀ p ∈ pagesOf [] [{ Id := none, Name := some "a" }, { Id := some "second", Name := some "a" }],
          ∀ s ∈ p, aws.ToString s.Name ≠ exampleData.name) := by
  decide

/-- C4 amended: if the read function fails with the not-found error, then listing completed
successfully (the replies consumed form a complete listing, one call per page, no fetch call,
data untouched) and either no summary of any listed page has a name equal to the query name, or
some summary of a listed page has a name equal to the query name and an absent id. -/
theorem notFound_only_without_match_or_with_absent_id (w : Setters) (conn : WAFV2Client)
    (d : ResourceData) (r : ReadResult)
    (hrun : dataSourceIPSetRead w conn d = some r)
    (hnf : r.diags = errorDiag ("WAFv2 IPSet not found for name: " ++ d.name)) :
    ∃ pre last rest, conn.ListIPSets = pagedScript pre last ++ rest ∧
      r.trace = (listRequests d.scope pre).map Call.list ∧ r.data = d ∧
      ((∀ p ∈ pagesOf pre last, ∀ s ∈ p, aws.ToString s.Name ≠ d.name) ∨
        (∃ p ∈ pagesOf pre last, ∃ s ∈ p, aws.ToString s.Name = d.name ∧ s.Id = none)) := by
  rcases read_inv w conn d r hrun with ⟨_, _, h | ⟨e, h⟩⟩ | ⟨pre, last, rest, hs, hr⟩
  · exact absurd (errorDiag_inj _ _ (hnf.symm.trans h)) (notFound_ne_listing _)
  · exact absurd (errorDiag_inj _ _ (hnf.symm.trans h)) (notFound_ne_listing_err _ _)
  · refine ⟨pre, last, rest, hs, ?_⟩
    rcases afterLoop_cases w conn d d.name ((listRequests d.scope pre).map Call.list)
        (carriedSummary d.name (pagesOf pre last)) with
      ⟨hid, heq⟩ | ⟨id, _, _, ⟨_, h | ⟨e, h⟩⟩ | ⟨e, h⟩ | h⟩
    · rw [heq] at hr
      refine ⟨by rw [hr], by rw [hr], ?_⟩
      rcases foldl_scanPage_cases d.name (pagesOf pre last) IPSetSummary.zero with
        ⟨hno, _⟩ | ⟨p, hp, s, hs2, hname, heq2⟩
      · exact Or.inl hno
      · refine Or.inr ⟨p, hp, s, hs2, hname, ?_⟩
        rw [← heq2]
        exact hid
    · rw [← hr] at h
      exact absurd (errorDiag_inj _ _ (hnf.symm.trans h)) (notFound_ne_fetch _)
    · rw [← hr] at h
      exact absurd (errorDiag_inj _ _ (hnf.symm.trans h)) (notFound_ne_fetch_err _ _)
    · rw [← hr] at h
      exact absurd (errorDiag_inj _ _ (hnf.symm.trans h)) (notFound_ne_setting _ _)
    · rw [← hr, hnf] at h
      simp [errorDiag] at h

/-- Instance of C4 amended: one page without a summary named a. -/
theorem notFound_only_without_match_or_with_absent_id_witness :
    dataSourceIPSetRead schemaSetters
        { ListIPSets := pagedScript [] [{ Id := some "1", Name := some "b" }],
          GetIPSet := exampleGet } exampleData
      = some { diags := errorDiag ("WAFv2 IPSet not found for name: " ++ exampleData.name),
               data := exampleData,
               trace := [Call.list { Scope := "REGIONAL", Limit := some 100, NextMarker := none }] } ∧
    ∃ pre last rest,
      pagedScript [] [{ Id := some "1", Name := some "b" }] = pagedScript pre last ++ rest ∧
      [Call.list { Scope := "REGIONAL", Limit := some 100, NextMarker := none }]
        = (listRequests exampleData.scope pre).map Call.list ∧ exampleData = exampleData ∧
      ((∀ p ∈ pagesOf pre last, ∀ s ∈ p, aws.ToString s.Name ≠ exampleData.name) ∨
        (∃ p ∈ pagesOf pre last, ∃ s ∈ p, aws.ToString s.Name = exampleData.name ∧ s.Id = none)) :=
  ⟨by decide,
   notFound_only_without_match_or_with_absent_id schemaSetters
     { ListIPSets := pagedScript [] [{ Id := some "1", Name := some "b" }],
       GetIPSet := exampleGet } exampleData
     { diags := errorDiag ("WAFv2 IPSet not found for name: " ++ exampleData.name),
       data := exampleData,
       trace := [Call.list { Scope := "REGIONAL", Limit := some 100, NextMarker := none }] }
     (by decide) rfl⟩

/-- C5 as stated fails: the listing matches, the fetch returns the example detail, and writing
addresses errors.  The read function returns an error diagnostic, yet id, arn, description and
ip_address_version of the resource data have been overwritten. -/
theorem failed_addresses_write_leaves_earlier_writes :
    (dataSourceIPSetRead addressesFailing
          { ListIPSets := pagedScript [] examplePage, GetIPSet := exampleGet } exampleData).map
        (fun r => (r.diags, r.data.id, r.data.arn, r.data.description, r.data.ip_address_version))
      = some (errorDiag "setting addresses: addresses: wrong element type", "id-detail",
              some "arn:aws:wafv2:set/a", some "office", "IPV4") ∧
    (exampleData.id, exampleData.arn, exampleData.description, exampleData.ip_address_version)
      = ("", none, none, "") := by
  decide

/-- C5 amended: for every behaviour of the two remote calls and of the attribute writers,
whenever the read function returns an error diagnostic, either the resource data is left exactly
as it was on entry, or the diagnostic is the one of a failed write of addresses ("setting
addresses: " followed by the error text). -/
theorem data_untouched_on_failure_before_addresses_write (w : Setters) (conn : WAFV2Client)
    (d : ResourceData) (r : ReadResult)
    (hrun : dataSourceIPSetRead w conn d = some r) (herr : r.diags ≠ []) :
    r.data = d ∨ ∃ e, r.diags = errorDiag ("setting addresses: " ++ e) := by
  rcases read_inv w conn d r hrun with ⟨hd, _, _⟩ | ⟨pre, last, rest, _, hr⟩
  · exact Or.inl hd
  · rcases afterLoop_cases w conn d d.name ((listRequests d.scope pre).map Call.list)
        (carriedSummary d.name (pagesOf pre last)) with
      ⟨_, heq⟩ | ⟨id, _, _, ⟨hd, _⟩ | ⟨e, h⟩ | h⟩
    · exact Or.inl (by rw [hr, heq])
    · exact Or.inl (by rw [hr]; exact hd)
    · exact Or.inr ⟨e, by rw [hr]; exact h⟩
    · exact absurd (by rw [hr]; exact h) herr

/-- Instance of C5 amended: the fetch fails after a match; the data is as on entry. -/
theorem data_untouched_on_failure_before_addresses_write_witness :
    dataSourceIPSetRead schemaSetters
        { ListIPSets := pagedScript [] examplePage, GetIPSet := fun _ => Except.error "timeout" }
        exampleData
      = some { diags := errorDiag "reading WAFv2 IPSet: timeout", data := exampleData,
               trace := [Call.list { Scope := "REGIONAL", Limit := some 100, NextMarker := none },
                         Call.get { Id := some "id-a", Name := some "a", Scope := "REGIONAL" }] } ∧
    errorDiag "reading WAFv2 IPSet: timeout" ≠ [] ∧
    (exampleData = exampleData ∨
      ∃ e, errorDiag "reading WAFv2 IPSet: timeout" = errorDiag ("setting addresses: " ++ e)) :=
  ⟨by decide, by decide,
   data_untouched_on_failure_before_addresses_write schemaSetters
     { ListIPSets := pagedScript [] examplePage, GetIPSet := fun _ => Except.error "timeout" }
     exampleData
     { diags := errorDiag "reading WAFv2 IPSet: timeout", data := exampleData,
       trace := [Call.list { Scope := "REGIONAL", Limit := some 100, NextMarker := none },
                 Call.get { Id := some "id-a", Name := some "a", Scope := "REGIONAL" }] }
     (by decide) (by decide)⟩

/-- C6 as stated fails: a single page, no cursor, whose only summary has the queried name and no
id, and a fetch that would return a present detail payload.  The read function returns the
not-found error and issues no fetch. -/
theorem single_page_match_without_id_is_not_found :
    (∃ s ∈ [({ Id := none, Name := some "a" } : IPSetSummary)],
        aws.ToString s.Name = exampleData.name) ∧
    dataSourceIPSetRead schemaSetters
        { ListIPSets := [okPage [{ Id := none, Name := some "a" }] none], GetIPSet := exampleGet }
        exampleData
      = some { diags := errorDiag "WAFv2 IPSet not found for name: a", data := exampleData,
               trace := [Call.list { Scope := "REGIONAL", Limit := some 100, NextMarker := none }] } := by
  decide

/-- C6 amended: for every query name, every single-page listing reply (no cursor) whose first
summary with the queried name has a present id, and every fetch reply with a present detail
payload, the read function (with the schema writers) returns no diagnostic, issues one listing
call and then the fetch keyed on that summary, and sets the record identifier to the id of the
payload (the empty string when absent), arn, description and ip_address_version to the values of
the payload, and addresses to the set with exactly the members of the address list of the
payload; name and scope are kept. -/
theorem single_page_success_maps_detail (get : GetIPSetInput → Reply GetIPSetOutput)
    (d : ResourceData) (ipSets : List IPSetSummary) (s : IPSetSummary) (id : String)
    (ipSet : IPSet) (lock : Option String)
    (hfirst : firstMatch d.name ipSets = some s) (hid : s.Id = some id)
    (hget : get { Id := some id, Name := s.Name, Scope := d.scope }
      = Except.ok (some { IPSet := some ipSet, LockToken := lock })) :
    ∃ r, dataSourceIPSetRead schemaSetters
          { ListIPSets := [okPage ipSets none], GetIPSet := get } d = some r ∧
      r.diags = [] ∧
      r.trace = [Call.list { Scope := d.scope, Limit := some 100, NextMarker := none },
                 Call.get { Id := some id, Name := s.Name, Scope := d.scope }] ∧
      r.data.id = aws.ToString ipSet.Id ∧ r.data.arn = ipSet.ARN ∧
      r.data.description = ipSet.Description ∧
      r.data.ip_address_version = ipSet.IPAddressVersion ∧
      (∀ a, a ∈ r.data.addresses ↔ a ∈ ipSet.Addresses) ∧
      r.data.name = d.name ∧ r.data.scope = d.scope := by
  have hrun := read_complete schemaSetters get d [] ipSets []
  have hc : carriedSummary d.name (pagesOf [] ipSets) = s := by
    simp [carriedSummary, pagesOf, scanPage_eq_firstMatch, hfirst]
  rw [hc] at hrun
  simp only [pagedScript, List.map_nil, List.nil_append, List.append_nil] at hrun
  refine ⟨_, hrun, ?_⟩
  simp [afterLoop, hid, hget, schemaSetters, flex.FlattenStringValueList, listRequests]

/-- Instance of C6 amended: the example page and the example detail. -/
theorem single_page_success_maps_detail_witness :
    firstMatch exampleData.name examplePage = some { Id := some "id-a", Name := some "a" } ∧
    exampleGet { Id := some "id-a", Name := some "a", Scope := exampleData.scope }
      = Except.ok (some { IPSet := some exampleDetail, LockToken := some "lock" }) ∧
    ∃ r, dataSourceIPSetRead schemaSetters
          { ListIPSets := [okPage examplePage none], GetIPSet := exampleGet } exampleData = some r ∧
      r.diags = [] ∧
      r.trace = [Call.list { Scope := exampleData.scope, Limit := some 100, NextMarker := none },
                 Call.get { Id := some "id-a", Name := some "a", Scope := exampleData.scope }] ∧
      r.data.id = aws.ToString exampleDetail.Id ∧ r.data.arn = exampleDetail.ARN ∧
      r.data.description = exampleDetail.Description ∧
      r.data.ip_address_version = exampleDetail.IPAddressVersion ∧
      (∀ a, a ∈ r.data.addresses ↔ a ∈ exampleDetail.Addresses) ∧
      r.data.name = exampleData.name ∧ r.data.scope = exampleData.scope :=
  ⟨by decide, rfl,
   single_page_success_maps_detail exampleGet exampleData examplePage
     { Id := some "id-a", Name := some "a" } "id-a" exampleDetail (some "lock")
     (by decide) rfl rfl⟩

/-- C7: whenever the read function issues a fetch call, the replies consumed form a complete
listing, the fetch is the last call after one listing call per page, its id and name are the id
and name of one summary of a listed page whose name (read as the code reads it, an absent name
as the empty string) is equal to the query name as a string, and its scope is the query scope.
Unless the query name is empty, the name of that summary is present and is the query name. -/
theorem fetch_is_keyed_on_a_matching_summary (w : Setters) (conn : WAFV2Client)
    (d : ResourceData) (r : ReadResult) (g : GetIPSetInput)
    (hrun : dataSourceIPSetRead w conn d = some r) (hg : Call.get g ∈ r.trace) :
    ∃ pre last rest, conn.ListIPSets = pagedScript pre last ++ rest ∧
      r.trace = (listRequests d.scope pre).map Call.list ++ [Call.get g] ∧
      (∃ p ∈ pagesOf pre last, ∃ s ∈ p,
        aws.ToString s.Name = d.name ∧ g.Id = s.Id ∧ g.Name = s.Name ∧
        (d.name ≠ "" → s.Name = some d.name)) ∧
      g.Scope = d.scope := by
  rcases read_inv w conn d r hrun with ⟨_, hno, _⟩ | ⟨pre, last, rest, hs, hr⟩
  · exact absurd hg (hno g)
  · refine ⟨pre, last, rest, hs, ?_⟩
    rcases afterLoop_cases w conn d d.name ((listRequests d.scope pre).map Call.list)
        (carriedSummary d.name (pagesOf pre last)) with
      ⟨_, heq⟩ | ⟨id, hid, htr, _⟩
    · rw [hr, heq] at hg
      exact absurd hg (get_not_mem_list_calls _ g)
    · rw [← hr] at htr
      rw [htr] at hg
      rcases List.mem_append.1 hg with hg | hg
      · exact absurd hg (get_not_mem_list_calls _ g)
      · have hgeq : g = ⟨some id, (carriedSummary d.name (pagesOf pre last)).Name, d.scope⟩ := by
          simpa using hg
        refine ⟨by rw [htr, hgeq], ?_, by rw [hgeq]⟩
        rcases foldl_scanPage_cases d.name (pagesOf pre last) IPSetSummary.zero with
          ⟨_, heq⟩ | ⟨p, hp, s, hs2, hname, heq⟩
        · have hz : (carriedSummary d.name (pagesOf pre last)).Id = none := by
            unfold carriedSummary
            rw [heq]
            rfl
          rw [hid] at hz
          exact absurd hz (by simp)
        · have hcs : carriedSummary d.name (pagesOf pre last) = s := heq
          refine ⟨p, hp, s, hs2, hname, ?_, ?_, ?_⟩
          · rw [hgeq, ← hcs, hid]
          · rw [hgeq, ← hcs]
          · intro hne
            cases hn : s.Name with
            | none =>
              rw [hn] at hname
              exact absurd hname.symm hne
            | some x =>
              rw [hn] at hname
              exact congrArg some hname

/-- Instance of C7: the example page, fetched successfully. -/
theorem fetch_is_keyed_on_a_matching_summary_witness :
    dataSourceIPSetRead schemaSetters
        { ListIPSets := pagedScript [] examplePage, GetIPSet := exampleGet } exampleData
      = some { diags := [], data := exampleFetched,
               trace := [Call.list { Scope := "REGIONAL", Limit := some 100, NextMarker := none },
                         Call.get { Id := some "id-a", Name := some "a", Scope := "REGIONAL" }] } ∧
    Call.get { Id := some "id-a", Name := some "a", Scope := "REGIONAL" }
      ∈ [Call.list { Scope := "REGIONAL", Limit := some 100, NextMarker := none },
         Call.get { Id := some "id-a", Name := some "a", Scope := "REGIONAL" }] ∧
    ∃ pre last rest, pagedScript [] examplePage = pagedScript pre last ++ rest ∧
      [Call.list { Scope := "REGIONAL", Limit := some 100, NextMarker := none },
       Call.get { Id := some "id-a", Name := some "a", Scope := "REGIONAL" }]
        = (listRequests exampleData.scope pre).map Call.list
            ++ [Call.get { Id := some "id-a", Name := some "a", Scope := "REGIONAL" }] ∧
      (∃ p ∈ pagesOf pre last, ∃ s ∈ p,
        aws.ToString s.Name = exampleData.name ∧ some "id-a" = s.Id ∧ some "a" = s.Name ∧
        (exampleData.name ≠ "" → s.Name = some exampleData.name)) ∧
      "REGIONAL" = exampleData.scope :=
  ⟨by decide, by decide,
   fetch_is_keyed_on_a_matching_summary schemaSetters
     { ListIPSets := pagedScript [] examplePage, GetIPSet := exampleGet } exampleData
     { diags := [], data := exampleFetched,
       trace := [Call.list { Scope := "REGIONAL", Limit := some 100, NextMarker := none },
                 Call.get { Id := some "id-a", Name := some "a", Scope := "REGIONAL" }] }
     { Id := some "id-a", Name := some "a", Scope := "REGIONAL" } (by decide) (by decide)⟩

/-- C8: when the listing call after any number of successful pages that carry a cursor returns an
error, the read function fails with the single error "reading WAFv2 IPSets: " followed by the
error text, leaves the resource data as it was, and its trace is exactly the listing calls up to
and including the failing one, with no fetch call; the summaries of the earlier pages, matching
or not, play no part. -/
theorem listing_error_aborts_without_fetch (w : Setters)
    (get : GetIPSetInput → Reply GetIPSetOutput) (d : ResourceData)
    (pre : List (List IPSetSummary × String)) (e : String)
    (rest : List (Reply ListIPSetsOutput)) :
    dataSourceIPSetRead w
        { ListIPSets := pre.map morePage ++ Except.error e :: rest, GetIPSet := get } d
        = some { diags := errorDiag ("reading WAFv2 IPSets: " ++ e), data := d,
                 trace := (listRequests d.scope pre).map Call.list } ∧
      ((listRequests d.scope pre).map Call.list).length = pre.length + 1 ∧
      (∀ g, Call.get g ∉ (listRequests d.scope pre).map Call.list) := by
  refine ⟨?_, ?_, fun g => get_not_mem_list_calls _ g⟩
  · exact read_failed w get d pre (Except.error e) rest _
      (by intro input found; simp [listLoop, sdkdiag.AppendErrorf, errorDiag])
  · rw [List.length_map, length_listRequests]

/-- C9: a listing reply that is nil or lacks the summaries list, after any number of successful
pages with a cursor, makes the read function fail with the single error "reading WAFv2 IPSets";
after a complete listing whose carried summary has a present id, a fetch reply that is nil or
lacks the detail payload makes it fail with the single error "reading WAFv2 IPSet"; in both cases
the data is untouched.  For every query name and error text each of these two messages differs
from the not-found message and from both transport-error messages. -/
theorem malformed_responses_have_their_own_error (w : Setters)
    (get : GetIPSetInput → Reply GetIPSetOutput) (d : ResourceData)
    (pre : List (List IPSetSummary × String)) (last : List IPSetSummary)
    (rest : List (Reply ListIPSetsOutput)) (marker lock : Option String) (n e : String) :
    (dataSourceIPSetRead w { ListIPSets := pre.map morePage ++ Except.ok none :: rest,
                             GetIPSet := get } d
      = some { diags := errorDiag "reading WAFv2 IPSets", data := d,
               trace := (listRequests d.scope pre).map Call.list }) ∧
    (dataSourceIPSetRead w
        { ListIPSets := pre.map morePage
            ++ Except.ok (some { IPSets := none, NextMarker := marker }) :: rest,
          GetIPSet := get } d
      = some { diags := errorDiag "reading WAFv2 IPSets", data := d,
               trace := (listRequests d.scope pre).map Call.list }) ∧
    (∀ id, (carriedSummary d.name (pagesOf pre last)).Id = some id →
      (get { Id := some id, Name := (carriedSummary d.name (pagesOf pre last)).Name,
             Scope := d.scope } = Except.ok none ∨
        get { Id := some id, Name := (carriedSummary d.name (pagesOf pre last)).Name,
              Scope := d.scope } = Except.ok (some { IPSet := none, LockToken := lock })) →
      dataSourceIPSetRead w { ListIPSets := pagedScript pre last, GetIPSet := get } d
        = some { diags := errorDiag "reading WAFv2 IPSet", data := d,
                 trace := (listRequests d.scope pre).map Call.list ++
                   [Call.get { Id := some id,
                               Name := (carriedSummary d.name (pagesOf pre last)).Name,
                               Scope := d.scope }] }) ∧
    ("reading WAFv2 IPSets" ≠ "WAFv2 IPSet not found for name: " ++ n ∧
      "reading WAFv2 IPSets" ≠ "reading WAFv2 IPSets: " ++ e ∧
      "reading WAFv2 IPSets" ≠ "reading WAFv2 IPSet: " ++ e) ∧
    ("reading WAFv2 IPSet" ≠ "WAFv2 IPSet not found for name: " ++ n ∧
      "reading WAFv2 IPSet" ≠ "reading WAFv2 IPSets: " ++ e ∧
      "reading WAFv2 IPSet" ≠ "reading WAFv2 IPSet: " ++ e) := by
  refine ⟨?_, ?_, ?_, ⟨?_, ?_, ?_⟩, ⟨?_, ?_, ?_⟩⟩
  · exact read_failed w get d pre (Except.ok none) rest _
      (by intro input found; simp [listLoop, sdkdiag.AppendErrorf, errorDiag])
  · exact read_failed w get d pre _ rest _
      (by intro input found; simp [listLoop, sdkdiag.AppendErrorf, errorDiag])
  · intro id hid hget
    have hrun := read_complete w get d pre last []
    rw [List.append_nil] at hrun
    rw [hrun]
    rcases hget with hget | hget
    · simp [afterLoop, hid, hget, sdkdiag.AppendErrorf, errorDiag]
    · simp [afterLoop, hid, hget, sdkdiag.AppendErrorf, errorDiag]
  · exact fun h => notFound_ne_listing n h.symm
  · exact listing_ne_listing_err e
  · exact listing_ne_fetch_err e
  · exact fun h => notFound_ne_fetch n h.symm
  · exact fetch_ne_listing_err e
  · exact fetch_ne_fetch_err e

/-- Instance of C9: the example page matched, then a fetch reply without a detail payload. -/
theorem malformed_responses_have_their_own_error_witness :
    (carriedSummary exampleData.name (pagesOf [] examplePage)).Id = some "id-a" ∧
    dataSourceIPSetRead schemaSetters
        { ListIPSets := pagedScript [] examplePage,
          GetIPSet := fun _ => Except.ok (some { IPSet := none, LockToken := none }) } exampleData
      = some { diags := errorDiag "reading WAFv2 IPSet", data := exampleData,
               trace := (listRequests exampleData.scope []).map Call.list ++
                 [Call.get { Id := some "id-a",
                             Name := (carriedSummary exampleData.name (pagesOf [] examplePage)).Name,
                             Scope := exampleData.scope }] } :=
  ⟨by decide,
   (malformed_responses_have_their_own_error schemaSetters
      (fun _ => Except.ok (some { IPSet := none, LockToken := none })) exampleData [] examplePage
      [] none none "a" "timeout").2.2.1 "id-a" (by decide) (Or.inr rfl)⟩

/-- C10 as stated fails: a single page whose only summary is named a and has no id.  The loop
carries that summary, name included, to the not-found check; it is not the zero summary. -/
theorem carried_summary_with_absent_id_is_not_zero :
    listLoop "a" { Scope := "REGIONAL", Limit := some 100, NextMarker := none } IPSetSummary.zero
        (pagedScript [] [{ Id := none, Name := some "a" }])
      = ([{ Scope := "REGIONAL", Limit := some 100, NextMarker := none }],
         LoopEnd.done { Id := none, Name := some "a" }) ∧
      ({ Id := none, Name := some "a" } : IPSetSummary).Id = none ∧
      ({ Id := none, Name := some "a" } : IPSetSummary) ≠ IPSetSummary.zero := by
  decide

/-- C10 amended: over a complete successful listing the loop issues one listing call per page
(the first with no cursor, each later one with the cursor of the previous reply, all with limit
100 and the query scope) wherever matches occur, and the summary it carries to the not-found
check is the first name-equal summary of the last page that contains one, the zero summary when
no page contains one.  When no page contains one, or when the id of the carried summary is
absent, the read function fails with the not-found error after the listing calls alone;
otherwise the fetch follows the listing calls, keyed on the id and name of the carried summary
and the query scope. -/
theorem loop_lists_every_page_and_carries_last_page_match (w : Setters)
    (get : GetIPSetInput → Reply GetIPSetOutput) (d : ResourceData)
    (pre : List (List IPSetSummary × String)) (last : List IPSetSummary) :
    listLoop d.name { Scope := d.scope, Limit := some 100, NextMarker := none } IPSetSummary.zero
        (pagedScript pre last)
      = (listRequests d.scope pre,
         LoopEnd.done (lastPageFirstMatch d.name (pagesOf pre last))) ∧
    (listRequests d.scope pre).length = (pagesOf pre last).length ∧
    ((∀ p ∈ pagesOf pre last, ∀ s ∈ p, aws.ToString s.Name ≠ d.name) →
      lastPageFirstMatch d.name (pagesOf pre last) = IPSetSummary.zero ∧
      dataSourceIPSetRead w { ListIPSets := pagedScript pre last, GetIPSet := get } d
        = some { diags := errorDiag ("WAFv2 IPSet not found for name: " ++ d.name), data := d,
                 trace := (listRequests d.scope pre).map Call.list }) ∧
    ((lastPageFirstMatch d.name (pagesOf pre last)).Id = none →
      dataSourceIPSetRead w { ListIPSets := pagedScript pre last, GetIPSet := get } d
        = some { diags := errorDiag ("WAFv2 IPSet not found for name: " ++ d.name), data := d,
                 trace := (listRequests d.scope pre).map Call.list }) ∧
    (∀ id, (lastPageFirstMatch d.name (pagesOf pre last)).Id = some id →
      ∃ r, dataSourceIPSetRead w { ListIPSets := pagedScript pre last, GetIPSet := get } d = some r ∧
        r.trace = (listRequests d.scope pre).map Call.list ++
          [Call.get { Id := some id, Name := (lastPageFirstMatch d.name (pagesOf pre last)).Name,
                      Scope := d.scope }]) := by
  have hloop := listLoop_complete d.name d.scope pre last []
  have hrun := read_complete w get d pre last []
  rw [List.append_nil] at hloop hrun
  rw [carriedSummary_eq_lastPageFirstMatch] at hloop hrun
  refine ⟨hloop, ?_, ?_, ?_, ?_⟩
  · rw [length_listRequests, length_pagesOf]
  · intro hno
    have hz : lastPageFirstMatch d.name (pagesOf pre last) = IPSetSummary.zero := by
      rw [← carriedSummary_eq_lastPageFirstMatch]
      rcases foldl_scanPage_cases d.name (pagesOf pre last) IPSetSummary.zero with
        ⟨_, heq⟩ | ⟨p, hp, s, hs, hname, _⟩
      · exact heq
      · exact absurd hname (hno p hp s hs)
    refine ⟨hz, ?_⟩
    rw [hrun, afterLoop_absent_id _ _ _ _ _ _ (by rw [hz]; rfl)]
  · intro hid
    rw [hrun, afterLoop_absent_id _ _ _ _ _ _ hid]
  · intro id hid
    exact ⟨_, hrun, afterLoop_trace_present_id _ _ _ _ _ _ id hid⟩

/-- Instance of C10 amended: two pages, each with a summary named a; the second one is carried
and fetched. -/
theorem loop_lists_every_page_and_carries_last_page_match_witness :
    (lastPageFirstMatch exampleData.name
        (pagesOf [([{ Id := some "first", Name := some "a" }], "m1")]
          [{ Id := some "x", Name := some "b" }, { Id := some "second", Name := some "a" }])).Id
      = some "second" ∧
    ∃ r, dataSourceIPSetRead schemaSetters
        { ListIPSets := pagedScript [([{ Id := some "first", Name := some "a" }], "m1")]
            [{ Id := some "x", Name := some "b" }, { Id := some "second", Name := some "a" }],
          GetIPSet := exampleGet } exampleData = some r ∧
      r.trace = (listRequests exampleData.scope
          [([{ Id := some "first", Name := some "a" }], "m1")]).map Call.list ++
        [Call.get { Id := some "second",
                    Name := (lastPageFirstMatch exampleData.name
                      (pagesOf [([{ Id := some "first", Name := some "a" }], "m1")]
                        [{ Id := some "x", Name := some "b" },
                         { Id := some "second", Name := some "a" }])).Name,
                    Scope := exampleData.scope }] :=
  ⟨by decide,
   (loop_lists_every_page_and_carries_last_page_match schemaSetters exampleGet exampleData
      [([{ Id := some "first", Name := some "a" }], "m1")]
      [{ Id := some "x", Name := some "b" }, { Id := some "second", Name := some "a" }]).2.2.2.2
      "second" (by decide)⟩

end wafv2
